import Mathlib

set_option maxRecDepth 100000

/-
Verification development for the STL geometry-ingestion engine of the
AerodynamicOptimizer repository.

Shallow embedding conventions:
  * A byte buffer (Node `Buffer` / browser `ArrayBuffer`) is a `List Nat`,
    one entry per byte; reads reduce entries mod 256 exactly where the
    decoders do.
  * A JavaScript number is modelled by `F`: an exact rational together with
    the special values NaN and signed infinity.  Decoding an IEEE-754
    binary32 value from bytes is exact, so `decodeF32` is a faithful
    translation; arithmetic (`fmin`, `fmax`, `fsub`, `fmul`) follows the
    JS special-value rules (NaN propagation, signed infinities) and is
    exact on finite values (the numerals 0.01 and 0.3 in the source are
    modelled by the rationals they denote).
  * Thrown exceptions (Node `Buffer` out-of-range reads, the `RangeError`
    of the `Uint8Array` view constructor) are modelled with `Except Unit`.
  * Text decoding of a byte is the character with that code point; the
    sources only rely on the ASCII range, where this agrees with UTF-8.

Server definitions come from src/server/lib/stlParser.ts, client
definitions from src/client/src/lib/stlParser.ts.
-/

/-- JavaScript number values relevant to the engine: exact finite
rationals, NaN, and infinities (`inf true` is negative infinity). -/
inductive F where
  | fin (q : ℚ)
  | nan
  | inf (neg : Bool)
deriving DecidableEq

/-- Semantics of `Math.min` on two JS numbers. -/
def fmin : F → F → F
  | F.nan, _ => F.nan
  | _, F.nan => F.nan
  | F.inf s, b => if s then F.inf true else b
  | a, F.inf s => if s then F.inf true else a
  | F.fin a, F.fin b => F.fin (min a b)

/-- Semantics of `Math.max` on two JS numbers. -/
def fmax : F → F → F
  | F.nan, _ => F.nan
  | _, F.nan => F.nan
  | F.inf s, b => if s then b else F.inf false
  | a, F.inf s => if s then a else F.inf false
  | F.fin a, F.fin b => F.fin (max a b)

/-- Semantics of JS subtraction on the values the engine can produce. -/
def fsub : F → F → F
  | F.nan, _ => F.nan
  | _, F.nan => F.nan
  | F.inf s, F.inf t => if s = t then F.nan else F.inf s
  | F.inf s, F.fin _ => F.inf s
  | F.fin _, F.inf t => F.inf (!t)
  | F.fin a, F.fin b => F.fin (a - b)

/-- Semantics of JS multiplication on the values the engine can produce. -/
def fmul : F → F → F
  | F.nan, _ => F.nan
  | _, F.nan => F.nan
  | F.inf s, F.inf t => F.inf (xor s t)
  | F.inf s, F.fin q => if q = 0 then F.nan else F.inf (xor s (decide (q < 0)))
  | F.fin q, F.inf s => if q = 0 then F.nan else F.inf (xor s (decide (q < 0)))
  | F.fin a, F.fin b => F.fin (a * b)

/-- Exact decoding of a little-endian IEEE-754 binary32 value from four
bytes, as performed by `Buffer.readFloatLE` / `DataView.getFloat32`. -/
def decodeF32 (b0 b1 b2 b3 : Nat) : F :=
  let bits : Nat := b0 % 256 + 256 * (b1 % 256) + 65536 * (b2 % 256) + 16777216 * (b3 % 256)
  let sign : Bool := bits / 2 ^ 31 % 2 = 1
  let ex : Nat := bits / 2 ^ 23 % 256
  let frac : Nat := bits % 2 ^ 23
  if ex = 255 then
    if frac = 0 then F.inf sign else F.nan
  else
    let mag : ℚ :=
      if ex = 0 then (frac : ℚ) * (2 : ℚ) ^ (-149 : ℤ)
      else ((8388608 + frac : ℕ) : ℚ) * (2 : ℚ) ^ ((ex : ℤ) - 150)
    F.fin (if sign then -mag else mag)

/-- Vertex: three coordinates, as pushed into the `vertices` arrays. -/
structure V3 where
  x : F
  y : F
  z : F
deriving DecidableEq

/-- Axis-aligned bounding box with componentwise minimum and maximum. -/
structure BBox where
  min : V3
  max : V3
deriving DecidableEq

/-- Origin vertex, the default corner for an empty bounding box. -/
def zeroV3 : V3 := ⟨F.fin 0, F.fin 0, F.fin 0⟩

/-- Character decoded from one byte (the sources only rely on ASCII). -/
def byteChar (b : Nat) : Char := Char.ofNat (b % 256)

/-- Text decoded from a byte buffer, one character per byte. -/
def decodeBytes (bs : List Nat) : List Char := bs.map byteChar

/-- Whitespace as recognised by JS `trim` and the `\s` character class,
restricted to the code points a byte can decode to. -/
def isJsWhitespace (c : Char) : Bool :=
  c = ' ' || c = '\t' || c = '\n' || c = '\r' || c = '\x0B' || c = '\x0C' || c = '\xA0'

/-- ASCII lowercasing of one character, as done by `toLowerCase`. -/
def lowerChar (c : Char) : Char :=
  if 'A' ≤ c ∧ c ≤ 'Z' then Char.ofNat (c.toNat + 32) else c

/-- JS `String.prototype.trim`: drop whitespace from both ends. -/
def trimChars (l : List Char) : List Char :=
  ((l.dropWhile isJsWhitespace).reverse.dropWhile isJsWhitespace).reverse

/-- Target of the format sniff comparison. -/
def solidChars : List Char := ['s', 'o', 'l', 'i', 'd']

/-- Prefix selected by the ASCII vertex-line filter. -/
def vertexChars : List Char := ['v', 'e', 'r', 't', 'e', 'x']

/-- Extension suffix required by the client validator. -/
def stlChars : List Char := ['.', 's', 't', 'l']

/-- JS `content.split('\n')`: split at every newline, keeping empty
segments. -/
def splitOnNl : List Char → List (List Char)
  | [] => [[]]
  | c :: rest =>
    match splitOnNl rest with
    | [] => [[]]
    | g :: gs => if c = '\n' then [] :: g :: gs else (c :: g) :: gs

/-- Split at every whitespace character, keeping empty segments. -/
def splitAtWs : List Char → List (List Char)
  | [] => [[]]
  | c :: rest =>
    match splitAtWs rest with
    | [] => [[]]
    | g :: gs => if isJsWhitespace c then [] :: g :: gs else (c :: g) :: gs

/-- JS `s.split(/\s+/)` on an already-trimmed string: the nonempty
segments between whitespace runs. -/
def wsTokens (l : List Char) : List (List Char) :=
  (splitAtWs l).filter (fun t => !t.isEmpty)

/-- Decimal digit test used by the numeric scanner. -/
def isDigitC (c : Char) : Bool := '0' ≤ c && c ≤ '9'

/-- Value of a list of decimal digit characters. -/
def digitsToNat (ds : List Char) : Nat :=
  ds.foldl (fun a c => a * 10 + (c.toNat - 48)) 0

/-- Value of the digit run of an exponent part (0 when there is none,
matching the backtracking of `parseFloat` on an empty exponent). -/
def expoDigits (ds : List Char) : ℤ := (digitsToNat (ds.takeWhile isDigitC) : ℤ)

/-- Signed exponent digits after the exponent marker. -/
def expoSigned : List Char → ℤ
  | '-' :: ds => -(expoDigits ds)
  | '+' :: ds => expoDigits ds
  | ds => expoDigits ds

/-- Exponent denoted by the remainder of a numeric literal. -/
def expoVal : List Char → ℤ
  | 'e' :: rest => expoSigned rest
  | 'E' :: rest => expoSigned rest
  | _ => 0

/-- Spelling of the JS `Infinity` literal. -/
def infinityChars : List Char := ['I', 'n', 'f', 'i', 'n', 'i', 't', 'y']

/-- Magnitude part of JS `parseFloat` after the optional sign: longest
valid numeric prefix, NaN when there is none. -/
def parseFloatMag (s : List Char) (neg : Bool) : F :=
  if infinityChars.isPrefixOf s then F.inf neg
  else
    let ip := s.takeWhile isDigitC
    let r1 := s.dropWhile isDigitC
    let fp := match r1 with
      | '.' :: r => r.takeWhile isDigitC
      | _ => []
    let r2 := match r1 with
      | '.' :: r => r.dropWhile isDigitC
      | _ => r1
    if ip.isEmpty && fp.isEmpty then F.nan
    else
      let mant : ℚ := (digitsToNat ip : ℚ) + (digitsToNat fp : ℚ) / (10 : ℚ) ^ fp.length
      let v : ℚ := mant * (10 : ℚ) ^ expoVal r2
      F.fin (if neg then -v else v)

/-- JS `parseFloat`: skip leading whitespace, take an optional sign,
then parse the longest numeric prefix (exact-rational model of the
decimal literal; a token with no numeric prefix yields NaN). -/
def jsParseFloat (cs : List Char) : F :=
  let s1 := cs.dropWhile isJsWhitespace
  match s1 with
  | '-' :: r => parseFloatMag r true
  | '+' :: r => parseFloatMag r false
  | _ => parseFloatMag s1 false

/-- Mesh information record (server `STLInfo`).  Counts are JS numbers;
the ASCII path can produce a fractional face count, so they are modelled
as exact rationals. -/
structure STLInfo where
  vertexCount : ℚ
  faceCount : ℚ
  boundingBox : BBox
  surfaceArea : F
  volume : F
deriving DecidableEq

/-- One step of the bounding-box loop body of `calculateBoundingBox`:
componentwise `Math.min` into the running minimum and `Math.max` into the
running maximum. -/
def bboxStep (p : V3 × V3) (v : V3) : V3 × V3 :=
  (⟨fmin p.1.x v.x, fmin p.1.y v.y, fmin p.1.z v.z⟩,
   ⟨fmax p.2.x v.x, fmax p.2.y v.y, fmax p.2.z v.z⟩)

/-- Server `calculateBoundingBox`: the zero box for an empty vertex list,
otherwise a linear pass from seeds `POSITIVE_INFINITY` / `NEGATIVE_INFINITY`. -/
def calculateBoundingBox (vertices : List V3) : BBox :=
  if vertices.isEmpty then ⟨zeroV3, zeroV3⟩
  else
    let p := vertices.foldl bboxStep
      (⟨F.inf false, F.inf false, F.inf false⟩, ⟨F.inf true, F.inf true, F.inf true⟩)
    ⟨p.1, p.2⟩

/-- Server `estimateSurfaceArea`: `faceCount * 0.01`. -/
def estimateSurfaceArea (faceCount : ℚ) : F := F.fin (faceCount * (1 / 100))

/-- Server `estimateVolume`: `width * height * depth * 0.3` on the
bounding box extents. -/
def estimateVolume (boundingBox : BBox) : F :=
  fmul
    (fmul
      (fmul (fsub boundingBox.max.x boundingBox.min.x)
            (fsub boundingBox.max.y boundingBox.min.y))
      (fsub boundingBox.max.z boundingBox.min.z))
    (F.fin (3 / 10))

/-- Server `isAsciiSTL`: decode the first six bytes (`buffer.toString`
clamps to the buffer length), trim, lowercase, compare to `"solid"`. -/
def isAsciiSTL (buf : List Nat) : Bool :=
  (trimChars (decodeBytes (buf.take 6))).map lowerChar == solidChars

/-- Lines of the decoded buffer whose trimmed content starts with the
string `vertex`, as selected by the filter in `parseAsciiSTL`. -/
def asciiVertexLines (buf : List Nat) : List (List Char) :=
  (splitOnNl (decodeBytes buf)).filter (fun l => vertexChars.isPrefixOf (trimChars l))

/-- Guard of the vertex-push branch: at least four whitespace-separated
parts in the trimmed line. -/
def lineHasCoords (l : List Char) : Bool :=
  decide (4 ≤ (wsTokens (trimChars l)).length)

/-- Vertex built from parts 1..3 of a vertex line by `parseFloat`. -/
def lineVertexVal (l : List Char) : V3 :=
  let parts := wsTokens (trimChars l)
  ⟨jsParseFloat (parts.getD 1 []), jsParseFloat (parts.getD 2 []), jsParseFloat (parts.getD 3 [])⟩

/-- Contribution of one selected line to the `vertices` array: pushed
only when the line splits into at least four parts. -/
def lineVertex (l : List Char) : Option V3 :=
  if lineHasCoords l then some (lineVertexVal l) else none

/-- Vertex array built by the loop over the selected vertex lines in
`parseAsciiSTL`. -/
def asciiVertices (buf : List Nat) : List V3 :=
  (asciiVertexLines buf).filterMap lineVertex

/-- Server `parseAsciiSTL`: count the vertex lines, take a third as the
face count, extract the vertices, and assemble the record. -/
def parseAsciiSTL (buf : List Nat) : STLInfo :=
  let vertexLines := asciiVertexLines buf
  let faceCount : ℚ := (vertexLines.length : ℚ) / 3
  let vertexCount : ℚ := faceCount * 3
  let boundingBox := calculateBoundingBox (asciiVertices buf)
  ⟨vertexCount, faceCount, boundingBox, estimateSurfaceArea faceCount, estimateVolume boundingBox⟩

/-- Unchecked little-endian 32-bit read used once the bounds check of the
`Buffer` accessor has passed. -/
def u32At (buf : List Nat) (off : Nat) : Nat :=
  buf.getD off 0 % 256 + 256 * (buf.getD (off + 1) 0 % 256) +
    65536 * (buf.getD (off + 2) 0 % 256) + 16777216 * (buf.getD (off + 3) 0 % 256)

/-- Node `buffer.readUInt32LE(off)`: throws a range error unless the four
bytes lie inside the buffer. -/
def readUInt32LE (buf : List Nat) (off : Nat) : Except Unit Nat :=
  if off + 4 ≤ buf.length then .ok (u32At buf off) else .error ()

/-- Unchecked binary32 read at a byte offset. -/
def f32At (buf : List Nat) (off : Nat) : F :=
  decodeF32 (buf.getD off 0) (buf.getD (off + 1) 0) (buf.getD (off + 2) 0) (buf.getD (off + 3) 0)

/-- Node `buffer.readFloatLE(off)`: throws a range error unless the four
bytes lie inside the buffer. -/
def readFloatLE (buf : List Nat) (off : Nat) : Except Unit F :=
  if off + 4 ≤ buf.length then .ok (f32At buf off) else .error ()

/-- Three float reads of one vertex (offsets `v`, `v+4`, `v+8`) in
`parseBinarySTL`. -/
def readVertexAt (buf : List Nat) (off : Nat) : Except Unit V3 :=
  match readFloatLE buf off, readFloatLE buf (off + 4), readFloatLE buf (off + 8) with
  | .ok x, .ok y, .ok z => .ok ⟨x, y, z⟩
  | .error e, _, _ => .error e
  | _, .error e, _ => .error e
  | _, _, .error e => .error e

/-- Three vertices of facet `i`, at base offset `84 + i*50 + 12` with 12
bytes per vertex. -/
def readFacetVertices (buf : List Nat) (i : Nat) : Except Unit (List V3) :=
  match readVertexAt buf (84 + i * 50 + 12), readVertexAt buf (84 + i * 50 + 12 + 12),
        readVertexAt buf (84 + i * 50 + 12 + 24) with
  | .ok a, .ok b, .ok c => .ok [a, b, c]
  | .error e, _, _ => .error e
  | _, .error e, _ => .error e
  | _, _, .error e => .error e

/-- Vertex reads of the first `n` facets of the loop in `parseBinarySTL`,
in file order; the first out-of-range read aborts the parse. -/
def readVertices (buf : List Nat) : Nat → Except Unit (List V3)
  | 0 => .ok []
  | n + 1 =>
    match readVertices buf n, readFacetVertices buf n with
    | .ok pre, .ok tri => .ok (pre ++ tri)
    | .error e, _ => .error e
    | _, .error e => .error e

/-- Server `parseBinarySTL`: read the declared facet count at offset 80,
read `3*N` vertices, and assemble the record. -/
def parseBinarySTL (buf : List Nat) : Except Unit STLInfo :=
  match readUInt32LE buf 80 with
  | .error e => .error e
  | .ok faceCount =>
    match readVertices buf faceCount with
    | .error e => .error e
    | .ok vertices =>
      let boundingBox := calculateBoundingBox vertices
      .ok ⟨(faceCount : ℚ) * 3, (faceCount : ℚ), boundingBox,
           estimateSurfaceArea (faceCount : ℚ), estimateVolume boundingBox⟩

/-- Server `analyzeSTL` on the bytes of the file: sniff the format and
dispatch; errors of either reader propagate (the catch block rethrows). -/
def analyzeSTL (buf : List Nat) : Except Unit STLInfo :=
  if isAsciiSTL buf then .ok (parseAsciiSTL buf) else parseBinarySTL buf

/-- Server `isValidSTL` on the bytes of the file: accept exactly when
`analyzeSTL` succeeds. -/
def isValidSTL (buf : List Nat) : Bool := (analyzeSTL buf).isOk

/-- Client `STLInfo` record: the validation result handed to the
uploader.  All counts the client produces are natural numbers. -/
structure ClientSTLInfo where
  vertexCount : Nat
  faceCount : Nat
  isValid : Bool
  errorMessage : Option String
deriving DecidableEq

/-- Client `isAsciiSTL`: `new Uint8Array(arrayBuffer, 0, 6)` throws a
range error when the buffer holds fewer than six bytes; otherwise decode,
trim, lowercase and compare to `"solid"` exactly as the server does. -/
def clientIsAsciiSTL (buf : List Nat) : Except Unit Bool :=
  if 6 ≤ buf.length then
    .ok ((trimChars (decodeBytes (buf.take 6))).map lowerChar == solidChars)
  else .error ()

/-- Client `view.getUint32(80, true)` on the `DataView`: same bounds and
value as the Node read. -/
def getUint32 (buf : List Nat) (off : Nat) : Except Unit Nat := readUInt32LE buf off

/-- Match of the regular expression `solid\s+(.*)`: the text contains the
string `solid` directly followed by at least one whitespace character
(the capture group can be empty, so only the whitespace matters). -/
def startsSolidWs : List Char → Bool
  | 's' :: 'o' :: 'l' :: 'i' :: 'd' :: c :: _ => isJsWhitespace c
  | _ => false

/-- Search of `solid\s+(.*)` anywhere in the decoded text. -/
def hasSolidWs : List Char → Bool
  | [] => false
  | c :: rest => startsSolidWs (c :: rest) || hasSolidWs rest

/-- Error message of the extension check. -/
def extMsg : String := "File must have .stl extension"

/-- Error message of the size check. -/
def sizeMsg : String := "File is too large (max 100MB)"

/-- Error message of the ASCII header check. -/
def badAsciiMsg : String := "Invalid ASCII STL file format"

/-- Error message of the binary size check. -/
def corruptMsg : String := "Binary STL file is corrupted or incomplete"

/-- Error message of the catch-all handler. -/
def parseFailMsg : String := "Failed to parse STL file"

/-- Body of the `try` block of `validateSTLFile`: sniff the format, then
either match the ASCII header on the first 1000 bytes and estimate the
counts from the file size, or read the binary facet count and compare the
declared size `84 + faceCount*50` with the actual length. -/
def validateBody (buf : List Nat) : Except Unit ClientSTLInfo :=
  match clientIsAsciiSTL buf with
  | .error e => .error e
  | .ok true =>
    if hasSolidWs (decodeBytes (buf.take 1000)) then
      let faceCount := buf.length / 400
      .ok ⟨faceCount * 3, faceCount, true, none⟩
    else
      .ok ⟨0, 0, false, some badAsciiMsg⟩
  | .ok false =>
    match getUint32 buf 80 with
    | .error e => .error e
    | .ok faceCount =>
      if buf.length < 84 + faceCount * 50 then
        .ok ⟨0, 0, false, some corruptMsg⟩
      else
        .ok ⟨faceCount * 3, faceCount, true, none⟩

/-- Client `validateSTLFile` on the file name and its bytes: extension
check, 100 MiB size check, then the `try` body with every thrown error
converted into an invalid result. -/
def validateSTLFile (name : List Char) (buf : List Nat) : ClientSTLInfo :=
  if !(stlChars.isSuffixOf (name.map lowerChar)) then
    ⟨0, 0, false, some extMsg⟩
  else if 100 * 1024 * 1024 < buf.length then
    ⟨0, 0, false, some sizeMsg⟩
  else
    match validateBody buf with
    | .ok r => r
    | .error _ => ⟨0, 0, false, some parseFailMsg⟩

/-- Modelling of the spec sentence for the format sniff, written from its
words: the first six bytes, decoded as text, trimmed and lowercased,
equal `"solid"`. -/
def sniffSpec (buf : List Nat) : Prop :=
  (trimChars (decodeBytes (buf.take 6))).map lowerChar = solidChars

/-- Vertex decoded from twelve bytes at an offset, written from the
claim: three little-endian 32-bit floats. -/
def specVertexAt (buf : List Nat) (off : Nat) : V3 :=
  ⟨f32At buf off, f32At buf (off + 4), f32At buf (off + 8)⟩

/-- Vertex stream described by the round-trip claim: for each facet
`i < n` the three vertices at offsets `84 + i*50 + 12` onwards, twelve
bytes per vertex, in file order. -/
def specVertices (buf : List Nat) : Nat → List V3
  | 0 => []
  | n + 1 =>
    specVertices buf n ++
      [specVertexAt buf (84 + n * 50 + 12), specVertexAt buf (84 + n * 50 + 12 + 12),
       specVertexAt buf (84 + n * 50 + 12 + 24)]

/-- Bounding box described by the claims, written from their words:
componentwise minimum and maximum over the vertex stream, the zero box
for an empty stream. -/
def specBBox (vs : List V3) : BBox :=
  match vs with
  | [] => ⟨zeroV3, zeroV3⟩
  | v :: rest =>
    ⟨⟨(rest.map V3.x).foldl fmin v.x, (rest.map V3.y).foldl fmin v.y,
      (rest.map V3.z).foldl fmin v.z⟩,
     ⟨(rest.map V3.x).foldl fmax v.x, (rest.map V3.y).foldl fmax v.y,
      (rest.map V3.z).foldl fmax v.z⟩⟩

/-- Coordinate projection indexed by the position of the token in a
vertex line (token `k+1` is coordinate `k`). -/
def coordIdx : Fin 3 → V3 → F
  | 0, v => v.x
  | 1, v => v.y
  | 2, v => v.z

/-- Extension disjunct of the validation claim: the lowercased name ends
in `.stl`. -/
def extensionOkB (name : List Char) : Bool := stlChars.isSuffixOf (name.map lowerChar)

/-- Size disjunct of the validation claim: more than 104857600 bytes. -/
def tooLargeB (buf : List Nat) : Bool := decide (104857600 < buf.length)

/-- Throw disjunct of the validation claim: the view constructor throws
on fewer than six bytes, and the binary count read throws on fewer than
84 bytes. -/
def decodeThrowsB (buf : List Nat) : Bool :=
  decide (buf.length < 6) || (!isAsciiSTL buf && decide (buf.length < 84))

/-- Binary disjunct of the validation claim: classified binary and the
declared size `84 + faceCount*50` exceeds the buffer length. -/
def binaryTruncB (buf : List Nat) : Bool :=
  decide (6 ≤ buf.length) && !isAsciiSTL buf && decide (84 ≤ buf.length) &&
    decide (buf.length < 84 + u32At buf 80 * 50)

/-- Textual disjunct of the validation claim: classified textual and the
first 1000 bytes do not match the `solid <name>` pattern. -/
def asciiBadB (buf : List Nat) : Bool :=
  decide (6 ≤ buf.length) && isAsciiSTL buf && !hasSolidWs (decodeBytes (buf.take 1000))

/-- Rejection condition of the validation claim: the disjunction of its
five failure modes. -/
def rejectSpecB (name : List Char) (buf : List Nat) : Bool :=
  !extensionOkB name || tooLargeB buf || decodeThrowsB buf || binaryTruncB buf || asciiBadB buf

/-- Decidable equality of fallible results, for evaluating the engine at
concrete inputs. -/
instance {e a : Type} [DecidableEq e] [DecidableEq a] : DecidableEq (Except e a) := fun x y =>
  match x, y with
  | .ok u, .ok v => if h : u = v then isTrue (by rw [h]) else isFalse (by simp [h])
  | .error u, .error v => if h : u = v then isTrue (by rw [h]) else isFalse (by simp [h])
  | .ok _, .error _ => isFalse (by simp)
  | .error _, .ok _ => isFalse (by simp)

/-- Binary buffer of 84 zero bytes: a valid binary STL declaring zero
facets. -/
def zeros84 : List Nat := List.replicate 84 0

/-- File name with the wrong extension. -/
def badNameStr : String := "model.txt"

/-- Character list of the wrong-extension file name. -/
def badName : List Char := badNameStr.toList

/-- File name with the right extension. -/
def goodNameStr : String := "model.stl"

/-- Character list of the well-formed file name. -/
def goodName : List Char := goodNameStr.toList

/-- Little-endian bytes of the binary32 value 1.0. -/
def oneF32 : List Nat := [0, 0, 128, 63]

/-- Four zero bytes, the binary32 value 0.0. -/
def z4 : List Nat := [0, 0, 0, 0]

/-- Binary buffer declaring one facet but holding only 132 bytes, two
short of the declared size 84 + 1*50 = 134: the two trailing attribute
bytes of the facet are missing. -/
def truncBuf : List Nat := List.replicate 80 0 ++ [1, 0, 0, 0] ++ List.replicate 48 0

/-- Binary buffer of the concrete scenario: header count 2, facet 1 with
vertices (0,0,0), (1,0,0), (0,1,0), facet 2 with vertices (0,0,1),
(1,0,1), (0,1,1), zero normals and attributes. -/
def demoBuf : List Nat :=
  List.replicate 80 0 ++ [2, 0, 0, 0] ++
    (List.replicate 12 0 ++ (z4 ++ z4 ++ z4) ++ (oneF32 ++ z4 ++ z4) ++ (z4 ++ oneF32 ++ z4) ++ [0, 0]) ++
    (List.replicate 12 0 ++ (z4 ++ z4 ++ oneF32) ++ (oneF32 ++ z4 ++ oneF32) ++ (z4 ++ oneF32 ++ oneF32) ++ [0, 0])

/-- Mesh record of the concrete scenario of the spec. -/
def demoInfo : STLInfo :=
  ⟨6, 2, ⟨⟨F.fin 0, F.fin 0, F.fin 0⟩, ⟨F.fin 1, F.fin 1, F.fin 1⟩⟩, F.fin (2 / 100), F.fin (3 / 10)⟩

/-- Binary buffer of exactly the declared size for one facet: 84-byte
header area with count 1, then 50 bytes of zero facet data. -/
def c3wBuf : List Nat := List.replicate 80 0 ++ [1, 0, 0, 0] ++ List.replicate 50 0

/-- Textual content with a single vertex line. -/
def oneVertexStr : String := "solid x\nvertex 1 2 3\nendsolid x"

/-- Byte list of an ASCII string. -/
def strBytes (s : String) : List Nat := s.toList.map Char.toNat

/-- Buffer of the textual content with a single vertex line. -/
def oneVertexBuf : List Nat := strBytes oneVertexStr

/-- Textual content whose vertex line has the non-numeric first
coordinate token `a`. -/
def nanVertexStr : String := "solid\nvertex a 0 0\n"

/-- Buffer of the textual content with the non-numeric token. -/
def nanVertexBuf : List Nat := strBytes nanVertexStr

/-- Line of the non-numeric vertex example, as produced by the split. -/
def nanVertexLine : List Char := ['v', 'e', 'r', 't', 'e', 'x', ' ', 'a', ' ', '0', ' ', '0']

theorem fmin_nan_left (b : F) : fmin F.nan b = F.nan := by cases b <;> rfl

theorem fmin_nan_right (a : F) : fmin a F.nan = F.nan := by cases a <;> rfl

theorem fmax_nan_left (b : F) : fmax F.nan b = F.nan := by cases b <;> rfl

theorem fmax_nan_right (a : F) : fmax a F.nan = F.nan := by cases a <;> rfl

theorem fmin_posInf (b : F) : fmin (F.inf false) b = b := by cases b <;> rfl

theorem fmax_negInf (b : F) : fmax (F.inf true) b = b := by cases b <;> rfl

theorem foldl_fmin_nan (l : List F) : l.foldl fmin F.nan = F.nan := by
  induction l with
  | nil => rfl
  | cons a t ih => rw [List.foldl_cons, fmin_nan_left, ih]

theorem foldl_fmax_nan (l : List F) : l.foldl fmax F.nan = F.nan := by
  induction l with
  | nil => rfl
  | cons a t ih => rw [List.foldl_cons, fmax_nan_left, ih]

theorem foldl_fmin_mem_nan (l : List F) (a : F) (h : F.nan ∈ l) : l.foldl fmin a = F.nan := by
  induction l generalizing a with
  | nil => cases h
  | cons b t ih =>
    rcases List.mem_cons.mp h with hb | ht
    · rw [List.foldl_cons, ← hb, fmin_nan_right, foldl_fmin_nan]
    · rw [List.foldl_cons]
      exact ih _ ht

theorem foldl_fmax_mem_nan (l : List F) (a : F) (h : F.nan ∈ l) : l.foldl fmax a = F.nan := by
  induction l generalizing a with
  | nil => cases h
  | cons b t ih =>
    rcases List.mem_cons.mp h with hb | ht
    · rw [List.foldl_cons, ← hb, fmax_nan_right, foldl_fmax_nan]
    · rw [List.foldl_cons]
      exact ih _ ht

theorem bboxFoldEq (l : List V3) (p : V3 × V3) :
    l.foldl bboxStep p =
      (⟨(l.map V3.x).foldl fmin p.1.x, (l.map V3.y).foldl fmin p.1.y,
        (l.map V3.z).foldl fmin p.1.z⟩,
       ⟨(l.map V3.x).foldl fmax p.2.x, (l.map V3.y).foldl fmax p.2.y,
        (l.map V3.z).foldl fmax p.2.z⟩) := by
  induction l generalizing p with
  | nil => rfl
  | cons v t ih =>
    rw [List.foldl_cons, ih]
    rfl

theorem calcBBox_eq_spec (vs : List V3) : calculateBoundingBox vs = specBBox vs := by
  cases vs with
  | nil => rfl
  | cons v t =>
    unfold calculateBoundingBox specBBox
    rw [List.foldl_cons, bboxFoldEq]
    simp [bboxStep, fmin_posInf, fmax_negInf]

theorem calcBBox_nan (vs : List V3) (k : Fin 3) (v : V3) (hv : v ∈ vs)
    (hnan : coordIdx k v = F.nan) :
    coordIdx k (calculateBoundingBox vs).min = F.nan ∧
      coordIdx k (calculateBoundingBox vs).max = F.nan := by
  have hne : vs.isEmpty = false := by
    cases vs with
    | nil => cases hv
    | cons a t => rfl
  unfold calculateBoundingBox
  rw [hne]
  simp only [Bool.false_eq_true, if_false]
  rw [bboxFoldEq]
  fin_cases k <;>
    simp only [coordIdx] at hnan ⊢ <;>
    exact ⟨foldl_fmin_mem_nan _ _ (List.mem_map.mpr ⟨v, hv, hnan⟩),
           foldl_fmax_mem_nan _ _ (List.mem_map.mpr ⟨v, hv, hnan⟩)⟩

theorem readFloatLE_ok (buf : List Nat) (off : Nat) (h : off + 4 ≤ buf.length) :
    readFloatLE buf off = .ok (f32At buf off) := by
  unfold readFloatLE
  rw [if_pos h]

theorem readVertexAt_ok (buf : List Nat) (off : Nat) (h : off + 12 ≤ buf.length) :
    readVertexAt buf off = .ok (specVertexAt buf off) := by
  unfold readVertexAt
  rw [readFloatLE_ok _ _ (by omega), readFloatLE_ok _ _ (by omega),
      readFloatLE_ok _ _ (by omega)]
  rfl

theorem readFacetVertices_ok (buf : List Nat) (i : Nat) (h : 84 + i * 50 + 48 ≤ buf.length) :
    readFacetVertices buf i =
      .ok [specVertexAt buf (84 + i * 50 + 12), specVertexAt buf (84 + i * 50 + 12 + 12),
           specVertexAt buf (84 + i * 50 + 12 + 24)] := by
  unfold readFacetVertices
  rw [readVertexAt_ok _ _ (by omega), readVertexAt_ok _ _ (by omega),
      readVertexAt_ok _ _ (by omega)]

theorem readVertices_ok (buf : List Nat) :
    ∀ n, 84 + n * 50 ≤ buf.length → readVertices buf n = .ok (specVertices buf n) := by
  intro n
  induction n with
  | zero => intro _; rfl
  | succ m ih =>
    intro h
    unfold readVertices
    rw [ih (by omega), readFacetVertices_ok _ _ (by omega)]
    rfl

theorem clientSniff_of_len (buf : List Nat) (h : 6 ≤ buf.length) :
    clientIsAsciiSTL buf = .ok (isAsciiSTL buf) := by
  unfold clientIsAsciiSTL isAsciiSTL
  rw [if_pos h]

theorem clientSniff_short (buf : List Nat) (h : buf.length < 6) :
    clientIsAsciiSTL buf = .error () := by
  unfold clientIsAsciiSTL
  rw [if_neg (by omega)]

theorem filterMap_guard {a b : Type} (p : a → Bool) (f : a → b) (l : List a) :
    l.filterMap (fun u => if p u then some (f u) else none) = (l.filter p).map f := by
  induction l with
  | nil => rfl
  | cons u t ih =>
    by_cases h : p u = true <;>
      simp [List.filterMap_cons, List.filter_cons, h, ih]

theorem validateBody_eq (buf : List Nat) :
    validateBody buf =
      if buf.length < 6 then .error ()
      else if isAsciiSTL buf then
        if hasSolidWs (decodeBytes (buf.take 1000)) then
          .ok ⟨buf.length / 400 * 3, buf.length / 400, true, none⟩
        else .ok ⟨0, 0, false, some badAsciiMsg⟩
      else if buf.length < 84 then .error ()
      else if buf.length < 84 + u32At buf 80 * 50 then .ok ⟨0, 0, false, some corruptMsg⟩
      else .ok ⟨u32At buf 80 * 3, u32At buf 80, true, none⟩ := by
  by_cases h6 : buf.length < 6
  · unfold validateBody
    rw [clientSniff_short buf h6, if_pos h6]
  · unfold validateBody
    rw [clientSniff_of_len buf (by omega), if_neg h6]
    cases hascii : isAsciiSTL buf with
    | true => rfl
    | false =>
      show (match getUint32 buf 80 with
            | Except.error e => Except.error e
            | Except.ok faceCount =>
              if buf.length < 84 + faceCount * 50 then
                Except.ok (⟨0, 0, false, some corruptMsg⟩ : ClientSTLInfo)
              else Except.ok (⟨faceCount * 3, faceCount, true, none⟩ : ClientSTLInfo)) = _
      unfold getUint32 readUInt32LE
      by_cases h84 : buf.length < 84
      · rw [if_neg (by omega), if_pos h84]
        rfl
      · rw [if_pos (by omega : 80 + 4 ≤ buf.length), if_neg h84]
        rfl

theorem validateSTLFile_eq (name : List Char) (buf : List Nat) :
    validateSTLFile name buf =
      if extensionOkB name = false then ⟨0, 0, false, some extMsg⟩
      else if tooLargeB buf then ⟨0, 0, false, some sizeMsg⟩
      else if buf.length < 6 then ⟨0, 0, false, some parseFailMsg⟩
      else if isAsciiSTL buf then
        if hasSolidWs (decodeBytes (buf.take 1000)) then
          ⟨buf.length / 400 * 3, buf.length / 400, true, none⟩
        else ⟨0, 0, false, some badAsciiMsg⟩
      else if buf.length < 84 then ⟨0, 0, false, some parseFailMsg⟩
      else if buf.length < 84 + u32At buf 80 * 50 then ⟨0, 0, false, some corruptMsg⟩
      else ⟨u32At buf 80 * 3, u32At buf 80, true, none⟩ := by
  unfold validateSTLFile
  cases hext : stlChars.isSuffixOf (name.map lowerChar) with
  | false => simp [extensionOkB, hext]
  | true =>
    simp only [extensionOkB, hext, Bool.not_true, Bool.false_eq_true, if_false]
    by_cases htl : 104857600 < buf.length
    · rw [if_pos (by omega : 100 * 1024 * 1024 < buf.length),
          if_neg (by simp [extensionOkB, hext]), if_pos (by simp [tooLargeB, htl])]
    · rw [if_neg (by omega : ¬ 100 * 1024 * 1024 < buf.length),
          if_neg (by simp [extensionOkB, hext]), if_neg (by simp [tooLargeB, htl])]
      rw [validateBody_eq]
      by_cases h6 : buf.length < 6
      · simp [h6]
      · cases hascii : isAsciiSTL buf with
        | true =>
          by_cases hsw : hasSolidWs (decodeBytes (buf.take 1000)) = true <;> simp [h6, hsw]
        | false =>
          by_cases h84 : buf.length < 84
          · simp [h6, h84]
          · by_cases htr : buf.length < 84 + u32At buf 80 * 50 <;> simp [h6, h84, htr]

/-- C1 counterexample: at the file name `model.txt` with a valid 84-byte
binary buffer declaring zero facets, the pre-transfer client check
rejects (wrong extension) while the authoritative server check accepts,
so the two paths do not produce the same accept/reject decision. -/
theorem c1_counterexample :
    (validateSTLFile badName zeros84).isValid = false ∧ isValidSTL zeros84 = true := by
  constructor
  · decide
  · decide

/-- C1 (amended): the two validation paths are not equivalent, but the
client path refines the server path: every (filename, buffer) pair the
client accepts is accepted by the server; the converse fails because the
extension check, the size check and the ASCII header pattern are
client-only. -/
theorem c1_theorem (name : List Char) (buf : List Nat)
    (h : (validateSTLFile name buf).isValid = true) : isValidSTL buf = true := by
  rw [validateSTLFile_eq] at h
  split at h
  next => simp at h
  next hext =>
    split at h
    next => simp at h
    next htl =>
      split at h
      next => simp at h
      next h6 =>
        split at h
        next hascii =>
          unfold isValidSTL analyzeSTL
          rw [if_pos hascii]
          rfl
        next hascii =>
          split at h
          next => simp at h
          next h84 =>
            split at h
            next => simp at h
            next htr =>
              unfold isValidSTL analyzeSTL parseBinarySTL readUInt32LE
              rw [if_neg hascii]
              have hb : 80 + 4 ≤ buf.length := by omega
              have hv := readVertices_ok buf (u32At buf 80) (by omega)
              simp [hb, hv, Except.isOk, Except.toBool]

/-- C1 witness: the client accepts the 84-byte zero-facet binary buffer
under the name `model.stl`, and the server then accepts the same bytes. -/
theorem c1_witness :
    (validateSTLFile goodName zeros84).isValid = true ∧ isValidSTL zeros84 = true :=
  ⟨by decide, c1_theorem goodName zeros84 (by decide)⟩

unseal Rat.mul Rat.inv Rat.add Rat.sub in
/-- C2: evaluation of the code at the failing input.  The 132-byte binary
buffer declares one facet, so its declared size is 84 + 1*50 = 134 and it
is truncated (132 < 134); the claim requires `analyze` to fail with a
TruncatedFile condition, but the code returns a complete mesh record with
`faceCount = 1`, because the two trailing attribute bytes of the last
facet are never read. -/
theorem c2_theorem :
    truncBuf.length = 132 ∧ truncBuf.length < 84 + 1 * 50 ∧
      readUInt32LE truncBuf 80 = .ok 1 ∧
      analyzeSTL truncBuf = .ok ⟨3, 1, ⟨zeroV3, zeroV3⟩, F.fin (1 / 100), F.fin 0⟩ := by
  refine ⟨by decide, by decide, by decide, by decide⟩

/-- C3: round-trip over the binary layout.  For every buffer classified
binary whose declared count at offset 80 reads as `n` and whose length is
at least `84 + n*50`, `analyzeSTL` succeeds with `faceCount = n` and a
bounding box equal to the componentwise minimum and maximum of the `3n`
vertices decoded at offsets `84 + i*50 + 12` (12 bytes per vertex); the
empty vertex stream (in particular `n = 0`) yields the zero bounding box. -/
theorem c3_theorem :
    (∀ (buf : List Nat) (n : Nat), isAsciiSTL buf = false →
        readUInt32LE buf 80 = .ok n → 84 + n * 50 ≤ buf.length →
        ∃ info, analyzeSTL buf = .ok info ∧ info.faceCount = (n : ℚ) ∧
          info.boundingBox = specBBox (specVertices buf n)) ∧
      calculateBoundingBox [] = ⟨zeroV3, zeroV3⟩ ∧ specBBox [] = ⟨zeroV3, zeroV3⟩ := by
  refine ⟨?_, rfl, rfl⟩
  intro buf n hascii hn hlen
  unfold analyzeSTL
  rw [if_neg (by simp [hascii])]
  unfold parseBinarySTL
  simp only [hn, readVertices_ok buf n hlen]
  exact ⟨_, rfl, rfl, calcBBox_eq_spec _⟩

/-- C3 witness: the 134-byte binary buffer declaring one zero facet is
classified binary, declares count 1, meets the length bound, and its
analysis result matches the specified bounding box. -/
theorem c3_witness :
    ∃ info, analyzeSTL c3wBuf = .ok info ∧ info.faceCount = ((1 : ℕ) : ℚ) ∧
      info.boundingBox = specBBox (specVertices c3wBuf 1) :=
  c3_theorem.1 c3wBuf 1 (by decide) (by decide) (by decide)

/-- C4: the invariant `vertexCount = 3 * faceCount` holds in every mesh
record produced by `analyzeSTL` (both the textual and the binary path)
and in the counts of every result of the client `validateSTLFile`. -/
theorem c4_theorem :
    (∀ (buf : List Nat) (info : STLInfo), analyzeSTL buf = .ok info →
        info.vertexCount = 3 * info.faceCount) ∧
      ∀ (name : List Char) (buf : List Nat),
        (validateSTLFile name buf).vertexCount = 3 * (validateSTLFile name buf).faceCount := by
  constructor
  · intro buf info h
    unfold analyzeSTL at h
    split at h
    next =>
      injection h with h2
      rw [← h2]
      show (parseAsciiSTL buf).vertexCount = 3 * (parseAsciiSTL buf).faceCount
      unfold parseAsciiSTL
      ring
    next =>
      unfold parseBinarySTL at h
      split at h
      next => simp at h
      next =>
        split at h
        next => simp at h
        next =>
          simp only [Except.ok.injEq] at h
          rw [← h]
          ring
  · intro name buf
    rw [validateSTLFile_eq]
    split
    next => rfl
    next =>
      split
      next => rfl
      next =>
        split
        next => rfl
        next =>
          split
          next =>
            split
            next =>
              show buf.length / 400 * 3 = 3 * (buf.length / 400)
              omega
            next => rfl
          next =>
            split
            next => rfl
            next =>
              split
              next => rfl
              next =>
                show u32At buf 80 * 3 = 3 * u32At buf 80
                omega

unseal Rat.mul Rat.inv Rat.add Rat.sub in
/-- C4 witness: the invariant at the two-facet demo buffer for the server
path and at a concrete accepted file for the client path. -/
theorem c4_witness :
    demoInfo.vertexCount = 3 * demoInfo.faceCount ∧
      (validateSTLFile goodName zeros84).vertexCount =
        3 * (validateSTLFile goodName zeros84).faceCount :=
  ⟨c4_theorem.1 demoBuf demoInfo (by decide), c4_theorem.2 goodName zeros84⟩

/-- C5: the client validator is total (its embedding returns a plain
result, every internal throw being caught), and it rejects — with an
error message present — exactly when the extension check, the size
check, an internal decoding throw, the binary size check, or the textual
header check fails; otherwise it accepts with no message. -/
theorem c5_theorem (name : List Char) (buf : List Nat) :
    (validateSTLFile name buf).isValid = !rejectSpecB name buf ∧
      (validateSTLFile name buf).errorMessage.isSome = rejectSpecB name buf := by
  rw [validateSTLFile_eq]
  split
  next hext => simp [rejectSpecB, hext]
  next hext =>
    have hext2 : stlChars <:+ List.map lowerChar name := by
      simpa [extensionOkB] using hext
    split
    next htl => simp [rejectSpecB, htl]
    next htl =>
      have htl2 : ¬ 104857600 < buf.length := by simpa [tooLargeB] using htl
      split
      next h6 =>
        simp [rejectSpecB, extensionOkB, tooLargeB, decodeThrowsB, hext2, htl2, h6]
      next h6 =>
        have h6b : 6 ≤ buf.length := by omega
        split
        next hascii =>
          split
          next hsw =>
            simp [rejectSpecB, extensionOkB, tooLargeB, decodeThrowsB, binaryTruncB,
              asciiBadB, hext2, htl2, h6, h6b, hascii, hsw]
          next hsw =>
            simp [rejectSpecB, extensionOkB, tooLargeB, decodeThrowsB, binaryTruncB,
              asciiBadB, hext2, htl2, h6, h6b, hascii, hsw]
        next hascii =>
          have hascii2 : isAsciiSTL buf = false := by
            revert hascii
            cases isAsciiSTL buf <;> simp
          split
          next h84 =>
            simp [rejectSpecB, extensionOkB, tooLargeB, decodeThrowsB, binaryTruncB,
              asciiBadB, hext2, htl2, h6, h6b, hascii2, h84]
          next h84 =>
            have h84b : 84 ≤ buf.length := by omega
            split
            next htr =>
              simp [rejectSpecB, extensionOkB, tooLargeB, decodeThrowsB, binaryTruncB,
                asciiBadB, hext2, htl2, h6, h6b, hascii2, h84, h84b, htr]
            next htr =>
              simp [rejectSpecB, extensionOkB, tooLargeB, decodeThrowsB, binaryTruncB,
                asciiBadB, hext2, htl2, h6, h6b, hascii2, h84, h84b, htr]

/-- C6 counterexample: on the empty buffer the client sniffer throws (the
`Uint8Array` view constructor requires six bytes), so the claim that both
sniffers classify every buffer with no error path fails; the server
sniffer classifies the same buffer as binary. -/
theorem c6_counterexample :
    clientIsAsciiSTL [] = .error () ∧ isAsciiSTL [] = false := by
  constructor
  · decide
  · decide

/-- C6 (amended): the server sniffer classifies every buffer — textual
exactly when the first six bytes, decoded, trimmed and lowercased, equal
`solid` — and the client sniffer agrees with it on every buffer of at
least six bytes, but throws a range error on shorter buffers. -/
theorem c6_theorem :
    (∀ buf : List Nat, isAsciiSTL buf = true ↔ sniffSpec buf) ∧
      (∀ buf : List Nat, 6 ≤ buf.length → clientIsAsciiSTL buf = .ok (isAsciiSTL buf)) ∧
      ∀ buf : List Nat, buf.length < 6 → clientIsAsciiSTL buf = .error () := by
  refine ⟨?_, clientSniff_of_len, clientSniff_short⟩
  intro buf
  unfold isAsciiSTL sniffSpec
  exact beq_iff_eq

/-- C6 witness: the spec equivalence at a textual buffer, the agreement
of the two sniffers at a six-byte buffer, and the client throw at a
two-byte buffer. -/
theorem c6_witness :
    (isAsciiSTL nanVertexBuf = true ↔ sniffSpec nanVertexBuf) ∧
      clientIsAsciiSTL nanVertexBuf = .ok (isAsciiSTL nanVertexBuf) ∧
      clientIsAsciiSTL [0, 0] = .error () :=
  ⟨c6_theorem.1 nanVertexBuf, c6_theorem.2.1 nanVertexBuf (by decide),
   c6_theorem.2.2 [0, 0] (by decide)⟩

unseal Rat.mul Rat.inv Rat.add Rat.sub in
/-- C7: every mesh record produced by `analyzeSTL` has
`surfaceArea = faceCount * 0.01` and `volume` equal to the product of the
bounding box extents times 0.3; and the two-facet demo buffer yields
`faceCount = 2`, `vertexCount = 6`, bounding box `[0,0,0]`–`[1,1,1]`,
`surfaceArea = 0.02` and `volume = 0.3`. -/
theorem c7_theorem :
    (∀ (buf : List Nat) (info : STLInfo), analyzeSTL buf = .ok info →
        info.surfaceArea = F.fin (info.faceCount * (1 / 100)) ∧
          info.volume =
            fmul (fmul (fmul (fsub info.boundingBox.max.x info.boundingBox.min.x)
                  (fsub info.boundingBox.max.y info.boundingBox.min.y))
                (fsub info.boundingBox.max.z info.boundingBox.min.z))
              (F.fin (3 / 10))) ∧
      analyzeSTL demoBuf = .ok demoInfo := by
  constructor
  · intro buf info h
    unfold analyzeSTL at h
    split at h
    next =>
      injection h with h2
      rw [← h2]
      exact ⟨rfl, rfl⟩
    next =>
      unfold parseBinarySTL at h
      split at h
      next => simp at h
      next =>
        split at h
        next => simp at h
        next =>
          simp only [Except.ok.injEq] at h
          rw [← h]
          exact ⟨rfl, rfl⟩
  · decide

unseal Rat.mul Rat.inv Rat.add Rat.sub in
/-- C7 witness: the estimator equations instantiated at the demo buffer
through the theorem itself. -/
theorem c7_witness :
    demoInfo.surfaceArea = F.fin (demoInfo.faceCount * (1 / 100)) ∧
      demoInfo.volume =
        fmul (fmul (fmul (fsub demoInfo.boundingBox.max.x demoInfo.boundingBox.min.x)
              (fsub demoInfo.boundingBox.max.y demoInfo.boundingBox.min.y))
            (fsub demoInfo.boundingBox.max.z demoInfo.boundingBox.min.z))
          (F.fin (3 / 10)) :=
  c7_theorem.1 demoBuf demoInfo (by decide)

unseal Rat.mul Rat.inv Rat.add Rat.sub in
/-- C8 counterexample: a textual buffer with exactly one vertex line
produces a vertex sequence of length 1, which is not a multiple of
three, and the face count 1/3, which is not the length of a grouping
into facets; so the claim that the output vertex sequence always has
length a multiple of three fails. -/
theorem c8_counterexample :
    (asciiVertices oneVertexBuf).length = 1 ∧
      (parseAsciiSTL oneVertexBuf).faceCount = 1 / 3 := by
  constructor
  · decide
  · decide

/-- C8 (amended): the ASCII reader selects exactly the lines whose
trimmed content begins with the string `vertex`; its face count is the
number of selected lines divided by three as exact (possibly fractional)
division, and its vertex sequence consists of one vertex for each
selected line that splits into at least four whitespace-separated
tokens — so the sequence length is the number of such lines and need not
be a multiple of three. -/
theorem c8_theorem (buf : List Nat) :
    (parseAsciiSTL buf).faceCount = ((asciiVertexLines buf).length : ℚ) / 3 ∧
      asciiVertices buf = ((asciiVertexLines buf).filter lineHasCoords).map lineVertexVal := by
  refine ⟨rfl, ?_⟩
  unfold asciiVertices lineVertex
  exact filterMap_guard lineHasCoords lineVertexVal _

/-- C9: on every textual input containing a selected vertex line with at
least four tokens whose coordinate token `k+1` parses to NaN, the
analysis does not abort: it returns a complete mesh record, and the NaN
propagates through the bounding-box reduction, leaving coordinate `k` of
both bounding box corners NaN. -/
theorem c9_theorem (buf : List Nat) (l : List Char) (k : Fin 3)
    (hl : l ∈ asciiVertexLines buf)
    (htok : 4 ≤ (wsTokens (trimChars l)).length)
    (hnan : jsParseFloat ((wsTokens (trimChars l)).getD (k.val + 1) []) = F.nan)
    (hascii : isAsciiSTL buf = true) :
    ∃ info, analyzeSTL buf = .ok info ∧
      coordIdx k info.boundingBox.min = F.nan ∧
        coordIdx k info.boundingBox.max = F.nan := by
  have hv : lineVertexVal l ∈ asciiVertices buf := by
    unfold asciiVertices
    exact List.mem_filterMap.mpr ⟨l, hl, by simp [lineVertex, lineHasCoords, htok]⟩
  have hcoord : coordIdx k (lineVertexVal l) = F.nan := by
    fin_cases k <;> simpa [coordIdx, lineVertexVal] using hnan
  obtain ⟨hmin, hmax⟩ := calcBBox_nan (asciiVertices buf) k (lineVertexVal l) hv hcoord
  refine ⟨parseAsciiSTL buf, ?_, hmin, hmax⟩
  unfold analyzeSTL
  rw [if_pos hascii]

/-- C9 witness: the textual buffer `solid`, `vertex a 0 0` has a vertex
line whose first coordinate token parses to NaN; analysis succeeds and
both x corners of the bounding box are NaN. -/
theorem c9_witness :
    ∃ info, analyzeSTL nanVertexBuf = .ok info ∧
      coordIdx 0 info.boundingBox.min = F.nan ∧
        coordIdx 0 info.boundingBox.max = F.nan :=
  c9_theorem nanVertexBuf nanVertexLine 0 (by decide) (by decide) (by decide) (by decide)

/-- Every client validation result is either an acceptance with counts
`(fc*3, fc)` and no message, or a rejection with both counts zero and a
message. -/
theorem validateSTLFile_shape (name : List Char) (buf : List Nat) :
    (∃ fc, validateSTLFile name buf = ⟨fc * 3, fc, true, none⟩) ∨
      ∃ msg, validateSTLFile name buf = ⟨0, 0, false, some msg⟩ := by
  rw [validateSTLFile_eq]
  split
  next => exact Or.inr ⟨_, rfl⟩
  next =>
    split
    next => exact Or.inr ⟨_, rfl⟩
    next =>
      split
      next => exact Or.inr ⟨_, rfl⟩
      next =>
        split
        next =>
          split
          next => exact Or.inl ⟨_, rfl⟩
          next => exact Or.inr ⟨_, rfl⟩
        next =>
          split
          next => exact Or.inr ⟨_, rfl⟩
          next =>
            split
            next => exact Or.inr ⟨_, rfl⟩
            next => exact Or.inl ⟨_, rfl⟩

/-- C10: whenever the client validator rejects — on any failure branch —
the returned face and vertex counts are both zero. -/
theorem c10_theorem (name : List Char) (buf : List Nat)
    (h : (validateSTLFile name buf).isValid = false) :
    (validateSTLFile name buf).faceCount = 0 ∧
      (validateSTLFile name buf).vertexCount = 0 := by
  rcases validateSTLFile_shape name buf with ⟨fc, hr⟩ | ⟨msg, hr⟩
  · rw [hr] at h
    simp at h
  · rw [hr]
    exact ⟨rfl, rfl⟩

/-- C10 witness: the rejection at a wrong-extension name reports zero
counts. -/
theorem c10_witness :
    (validateSTLFile badName zeros84).faceCount = 0 ∧
      (validateSTLFile badName zeros84).vertexCount = 0 :=
  c10_theorem badName zeros84 (by decide)
